import Mathlib

/-!
Verification of the CRUD-RBAC platform core against its specification.

The development shallowly embeds:
* the dynamic CRUD route handlers (`GET`/`POST`/`PUT`/`DELETE` of
  `app/api/crud/[modelName]/route.ts`, provided as `src/unnamed/part_001`),
* the file-backed definition store (`src/lib/model-persistence.ts`), and
* the definition-creation check of `src/app/api/models/route.ts`.

JavaScript runtime details that the handlers rely on are modelled
explicitly: payloads are JSON-like objects (association lists where a later
entry shadows an earlier one, as in object spread), `!x` is JS falsiness,
`x !== y` is strict inequality, and `rbac[role] || []` defaults a missing
role to the empty permission list.  The handlers read the calling
role and id of the calling principal from the auth context; the demo code
stubs that context with the constants "Admin" and "user-1" (each marked
"In real app, get from auth context"), so the embedding passes the role
and id of the principal as explicit parameters.  Wall-clock timestamps and generated ids are
likewise passed as parameters.
-/

namespace CrudRbac

/-- JSON-like values as they occur in request payloads and records.
The first constructor is JavaScript `undefined`, the result of reading an
absent key. -/
inductive JsValue where
  | undefined : JsValue
  | null : JsValue
  | str : String → JsValue
  | num : Rat → JsValue
  | bool : Bool → JsValue
deriving DecidableEq, Repr

/-- JavaScript truthiness of a value, as used by `!body[field.name]` and
`if (modelDef.ownerField)` in the handlers. -/
def JsValue.truthy : JsValue → Bool
  | .undefined => false
  | .null => false
  | .str s => s ≠ ""
  | .num q => q ≠ 0
  | .bool b => b

/-- True exactly for JSON numbers. -/
def JsValue.isNum : JsValue → Bool
  | .num _ => true
  | _ => false

/-- A JavaScript object: association list of properties.  A later entry
shadows an earlier one, matching object-spread semantics. -/
abbrev Obj := List (String × JsValue)

/-- Property read `o[k]`: the last binding of `k` wins (object-literal /
spread semantics); an absent key reads as `undefined`. -/
def getProp (o : Obj) (k : String) : JsValue :=
  match o.reverse.lookup k with
  | some v => v
  | none => .undefined

/-- The five field types of `ModelDefinition.fields[].type`
(`model-persistence.ts`). -/
inductive FieldType where
  | string | number | boolean | date | text
deriving DecidableEq, Repr

/-- One field of a model definition (`model-persistence.ts`, interface
`ModelDefinition`).  Optional booleans default to `false` (absent is
falsy); `default` stores the declared default literal as text. -/
structure Field where
  name : String
  type : FieldType
  required : Bool := false
  default : Option String := none
  unique : Bool := false
  relation : Option String := none
deriving DecidableEq, Repr

/-- A model definition (`model-persistence.ts`, interface
`ModelDefinition`): named field list, optional ownership field, and the
role to permitted-actions map `rbac`. -/
structure ModelDefinition where
  name : String
  tableName : Option String := none
  fields : List Field
  ownerField : Option String := none
  rbac : List (String × List String)
deriving DecidableEq, Repr

/-- `modelDef.rbac[userRole] || []`: the permission list of a role, the
empty list when the role is absent from the map. -/
def rbacPermissions (md : ModelDefinition) (role : String) : List String :=
  (md.rbac.lookup role).getD []

/-- Result of the dynamic GET handler.  The mock data it returns on
success is generated with `Math.random` and is irrelevant to every claim,
so the two success shapes are abstracted to bare constructors. -/
inductive GetResult where
  | modelNotFound
  | insufficientPermissions
  | okSingle
  | okList
deriving DecidableEq, Repr

/-- Result of the dynamic POST handler. -/
inductive PostResult where
  | modelNotFound
  | insufficientPermissions
  | requiredFieldMissing (fieldName : String)
  | created (record : Obj)
deriving DecidableEq, Repr

/-- Result of the dynamic PUT handler. -/
inductive PutResult where
  | missingId
  | modelNotFound
  | insufficientPermissions
  | ownershipDenied
  | updated (record : Obj)
deriving DecidableEq, Repr

/-- Result of the dynamic DELETE handler. -/
inductive DeleteResult where
  | missingId
  | modelNotFound
  | insufficientPermissions
  | ownershipDenied
  | deleted
deriving DecidableEq, Repr

/-- The required-field loop of the POST handler: return the first field
with `field.required && !body[field.name]`, if any.  The loop returns a
400 response at the first such field. -/
def findMissingRequired (fields : List Field) (body : Obj) : Option String :=
  match fields with
  | [] => none
  | f :: fs =>
    if f.required && !(getProp body f.name).truthy then some f.name
    else findMissingRequired fs body

/-- Dynamic GET handler (`part_001`).  `loaded` is the result of
`modelPersistence.loadModel(modelName)` (`none` = `null`); `role` is the
role of the calling principal; `id` is the optional query parameter. -/
def GET (loaded : Option ModelDefinition) (role : String)
    (id : Option String) : GetResult :=
  match loaded with
  | none => .modelNotFound
  | some md =>
    if !((rbacPermissions md role).contains "read") then
      .insufficientPermissions
    else
      match id with
      | some _ => .okSingle
      | none => .okList

/-- Dynamic POST handler (`part_001`): load, role check for `create`,
required-field loop, then the created record
`{id: newId, ...body, createdAt, updatedAt}`. -/
def POST (loaded : Option ModelDefinition) (role : String) (body : Obj)
    (newId createdAt updatedAt : String) : PostResult :=
  match loaded with
  | none => .modelNotFound
  | some md =>
    if !((rbacPermissions md role).contains "create") then
      .insufficientPermissions
    else
      match findMissingRequired md.fields body with
      | some fname => .requiredFieldMissing fname
      | none =>
        .created ([("id", .str newId)] ++ body ++
          [("createdAt", .str createdAt), ("updatedAt", .str updatedAt)])

/-- Dynamic PUT handler (`part_001`): id check, load, role check for
`update`, then — when `modelDef.ownerField` is truthy — the ownership
test (the payload value at the owner field is strictly unequal to the
user id, and the role is strictly unequal to "Admin"),
and finally the updated record `{id, ...body, updatedAt}`. -/
def PUT (loaded : Option ModelDefinition) (role userId : String)
    (id : Option String) (body : Obj) (updatedAt : String) : PutResult :=
  match id with
  | none => .missingId
  | some rid =>
    match loaded with
    | none => .modelNotFound
    | some md =>
      if !((rbacPermissions md role).contains "update") then
        .insufficientPermissions
      else
        let record : Obj :=
          [("id", .str rid)] ++ body ++ [("updatedAt", .str updatedAt)]
        if (md.ownerField.getD "") ≠ "" then
          if getProp body (md.ownerField.getD "") ≠ JsValue.str userId ∧
              role ≠ "Admin" then
            .ownershipDenied
          else
            .updated record
        else
          .updated record

/-- Dynamic DELETE handler (`part_001`): id check, load, role check for
`delete`, then — when `modelDef.ownerField` is truthy — every
role other than "Admin" is denied; no record or ownership value is
consulted. -/
def DELETE (loaded : Option ModelDefinition) (role : String)
    (id : Option String) : DeleteResult :=
  match id with
  | none => .missingId
  | some _ =>
    match loaded with
    | none => .modelNotFound
    | some md =>
      if !((rbacPermissions md role).contains "delete") then
        .insufficientPermissions
      else
        if (md.ownerField.getD "") ≠ "" then
          if role ≠ "Admin" then .ownershipDenied else .deleted
        else
          .deleted

/-- A model document persisted by `saveModel`
(`{...model, createdAt, updatedAt}` in `model-persistence.ts`).
Timestamps are modelled as natural numbers (ISO strings compare by time). -/
structure StoredModel where
  model : ModelDefinition
  createdAt : Nat
  updatedAt : Nat
deriving DecidableEq, Repr

/-- The raw text of one stored file: either it parses (`JSON.parse`
succeeds and yields a stored document) or it is malformed
(`JSON.parse` throws). -/
inductive RawDoc where
  | wellFormed (m : StoredModel)
  | malformed
deriving DecidableEq, Repr

/-- `JSON.parse` on a raw document, `none` when it throws. -/
def parseDoc : RawDoc → Option StoredModel
  | .wellFormed m => some m
  | .malformed => none

/-- The models directory: one raw document per model name
(file `<name>.json`). -/
abbrev Store := List (String × RawDoc)

/-- `fs.readFile` on the file of `name`, `none` when the file is absent
(the read throws). -/
def readFile (s : Store) (name : String) : Option RawDoc :=
  s.lookup name

/-- `fs.writeFile`: create or overwrite the file of `name`. -/
def writeFile (s : Store) (name : String) (doc : RawDoc) : Store :=
  (name, doc) :: s.filter (fun e => e.1 != name)

/-- `ModelPersistence.saveModel`: write the document
`{...model, createdAt: now, updatedAt: now}` to `<model.name>.json`.
Both timestamps are freshly taken from the clock; no validation of the
definition happens here. -/
def saveModel (s : Store) (m : ModelDefinition) (now : Nat) : Store :=
  writeFile s m.name (.wellFormed { model := m, createdAt := now, updatedAt := now })

/-- `ModelPersistence.loadModel`: read the file and `JSON.parse` it;
any thrown error (missing file or parse failure) is caught and yields
`null`. -/
def loadModel (s : Store) (name : String) : Option StoredModel :=
  match readFile s name with
  | none => none
  | some doc => parseDoc doc

/-- A `Partial<ModelDefinition>`: each component optionally overridden. -/
structure ModelUpdates where
  name : Option String := none
  tableName : Option (Option String) := none
  fields : Option (List Field) := none
  ownerField : Option (Option String) := none
  rbac : Option (List (String × List String)) := none

/-- The spread `{...existingModel, ...updates}` of `updateModel`. -/
def applyUpdates (m : ModelDefinition) (u : ModelUpdates) : ModelDefinition :=
  { name := u.name.getD m.name
    tableName := u.tableName.getD m.tableName
    fields := u.fields.getD m.fields
    ownerField := u.ownerField.getD m.ownerField
    rbac := u.rbac.getD m.rbac }

/-- `ModelPersistence.updateModel`: load the existing model; when absent
return `false` without touching the store; otherwise merge the updates
and `saveModel` the result (whose write refreshes both timestamps),
returning `true`.  All exceptions are caught. -/
def updateModel (s : Store) (name : String) (u : ModelUpdates) (now : Nat) :
    Bool × Store :=
  match loadModel s name with
  | none => (false, s)
  | some existing => (true, saveModel s (applyUpdates existing.model u) now)

/-- The pre-write check of `POST /api/models` (`models/route.ts`):
reject when `!name || !fields || !Array.isArray(fields) ||
fields.length === 0`; the field list is typed, so the array test is
carried by the `Option`. -/
def modelsPostValid (name : String) (fields : Option (List Field)) : Bool :=
  match fields with
  | none => false
  | some fs => name != "" && fs.length != 0

/-- Modelled from the spec: the definition invariants that §4.1 says
`save` checks (unique field names, every rbac value drawn from the four
canonical actions, non-empty field list).  No function in the source
checks these; the definition exists to compare the persistence code
against the wording of the spec. -/
def specDefinitionInvariants (m : ModelDefinition) : Prop :=
  (m.fields.map Field.name).Nodup ∧
  (∀ entry ∈ m.rbac, ∀ a ∈ entry.2, a ∈ ["create", "read", "update", "delete"]) ∧
  m.fields ≠ []

instance (m : ModelDefinition) : Decidable (specDefinitionInvariants m) := by
  unfold specDefinitionInvariants
  infer_instance

/-- The Product scenario model of spec §8: name and price required, the
boolean isActive with declared default "true", no owner field. -/
def productDef : ModelDefinition :=
  { name := "Product"
    fields :=
      [{ name := "name", type := .string, required := true },
       { name := "price", type := .number, required := true },
       { name := "isActive", type := .boolean, default := some "true" }]
    rbac := [("Admin", ["create", "read", "update", "delete"]),
             ("Viewer", ["read"])] }

/-- The Create payload of the Product scenario: a string for name and the
string "999.99" for price, isActive absent. -/
def laptopPayload : Obj :=
  [("name", .str "Laptop"), ("price", .str "999.99")]

/-- A Task-like model with an owner field, whose Manager role holds all
four actions. -/
def taskDef : ModelDefinition :=
  { name := "Task"
    fields :=
      [{ name := "title", type := .string, required := true },
       { name := "ownerId", type := .string }]
    ownerField := some "ownerId"
    rbac := [("Admin", ["create", "read", "update", "delete"]),
             ("Manager", ["create", "read", "update", "delete"])] }

/-- A model giving only the Viewer role any permission; used to exercise
the default-deny path for unlisted roles. -/
def viewerModel : ModelDefinition :=
  { name := "Doc"
    fields := [{ name := "title", type := .string }]
    rbac := [("Viewer", ["read"])] }

/-- A model with one required text field and no default, no owner field. -/
def noteDef : ModelDefinition :=
  { name := "Note"
    fields := [{ name := "body", type := .text, required := true }]
    rbac := [("Manager", ["create", "read", "update"])] }

/-- A model with two required fields, both without defaults. -/
def twoReqDef : ModelDefinition :=
  { name := "Pair"
    fields :=
      [{ name := "a", type := .string, required := true },
       { name := "b", type := .string, required := true }]
    rbac := [("Admin", ["create"])] }

/-- A definition violating the save-time invariants of spec §4.1: the
field name "x" occurs twice and the rbac entry holds the non-canonical
action "fly". -/
def dupFieldDef : ModelDefinition :=
  { name := "Broken"
    fields :=
      [{ name := "x", type := .string },
       { name := "x", type := .number }]
    rbac := [("Admin", ["fly"])] }

/-- The required-field loop of POST returns exactly the name of the first
field that is required and carries a falsy payload value. -/
theorem findMissingRequired_eq_find (fields : List Field) (body : Obj) :
    findMissingRequired fields body =
      (fields.find? (fun f => f.required && !(getProp body f.name).truthy)).map
        Field.name := by
  induction fields with
  | nil => rfl
  | cons f fs ih =>
    cases h : f.required && !(getProp body f.name).truthy with
    | true => simp [findMissingRequired, List.find?, h]
    | false => simp [findMissingRequired, List.find?, h, ih]

/-- C1: for every model definition, role, and CRUD action, if the action
is not in the rbac entry of the role (a role absent from the rbac map has
the empty permission list), the handler of that action answers with the
insufficient-permission error, regardless of the payload, any ownership
value in it, and the ownerField of the model. -/
theorem denied_without_base_permission
    (md : ModelDefinition) (role uid rid newId t1 t2 tu : String) (body : Obj) :
    (md.rbac.lookup role = none → rbacPermissions md role = []) ∧
    ((rbacPermissions md role).contains "read" = false →
      GET (some md) role (some rid) = .insufficientPermissions ∧
      GET (some md) role none = .insufficientPermissions) ∧
    ((rbacPermissions md role).contains "create" = false →
      POST (some md) role body newId t1 t2 = .insufficientPermissions) ∧
    ((rbacPermissions md role).contains "update" = false →
      PUT (some md) role uid (some rid) body tu = .insufficientPermissions) ∧
    ((rbacPermissions md role).contains "delete" = false →
      DELETE (some md) role (some rid) = .insufficientPermissions) := by
  refine ⟨?_, ?_, ?_, ?_, ?_⟩
  · intro h
    simp [rbacPermissions, h]
  · intro h
    have hmem : "read" ∉ rbacPermissions md role := by simpa using h
    exact ⟨by simp [GET, hmem], by simp [GET, hmem]⟩
  · intro h
    have hmem : "create" ∉ rbacPermissions md role := by simpa using h
    simp [POST, hmem]
  · intro h
    have hmem : "update" ∉ rbacPermissions md role := by simpa using h
    simp [PUT, hmem]
  · intro h
    have hmem : "delete" ∉ rbacPermissions md role := by simpa using h
    simp [DELETE, hmem]

/-- Witness for C1: the role "Ghost" is absent from the rbac map of
`viewerModel`, so all four handlers deny. -/
theorem denied_without_base_permission_witness :
    rbacPermissions viewerModel "Ghost" = [] ∧
    GET (some viewerModel) "Ghost" (some "r1") = .insufficientPermissions ∧
    POST (some viewerModel) "Ghost" [] "m1" "t1" "t2" = .insufficientPermissions ∧
    PUT (some viewerModel) "Ghost" "user-1" (some "r1") [] "t3" =
      .insufficientPermissions ∧
    DELETE (some viewerModel) "Ghost" (some "r1") = .insufficientPermissions := by
  obtain ⟨h1, h2, h3, h4, h5⟩ :=
    denied_without_base_permission viewerModel "Ghost" "user-1" "r1" "m1" "t1"
      "t2" "t3" []
  exact ⟨h1 (by decide), (h2 (by decide)).1, h3 (by decide), h4 (by decide),
    h5 (by decide)⟩

/-- C2 counterexample: the Manager role of `taskDef` holds the delete
action and the model has an owner field, yet the DELETE handler denies the
request with the ownership error.  The handler never reads any ownership
value, so it denies even the caller that owns the record (for example a
record whose ownerId equals the id of the principal), contradicting the
claim that such a delete is allowed exactly when the owner value equals
the principal id. -/
theorem delete_denies_owner_counterexample :
    DELETE (some taskDef) "Manager" (some "rec-1") =
      DeleteResult.ownershipDenied ∧
    DeleteResult.ownershipDenied ≠ DeleteResult.deleted := by
  exact ⟨by decide, by decide⟩

/-- C2 (amended): for a model whose ownerField is a non-empty name and a
non-Admin role holding update and delete: an update is allowed exactly
when the payload value at the owner field equals the principal id (an
absent value reads as undefined, which is unequal, and is denied through
the same single ownership error as a mismatching value); a delete is
always denied with the ownership error, regardless of any ownership
value. -/
theorem ownership_gate_update_delete
    (md : ModelDefinition) (role uid rid tu of : String) (body : Obj)
    (howner : md.ownerField = some of) (hof : of ≠ "")
    (hrole : role ≠ "Admin")
    (hup : (rbacPermissions md role).contains "update" = true)
    (hdel : (rbacPermissions md role).contains "delete" = true) :
    (PUT (some md) role uid (some rid) body tu =
        .updated ([("id", .str rid)] ++ body ++ [("updatedAt", .str tu)]) ↔
      getProp body of = JsValue.str uid) ∧
    (getProp body of ≠ JsValue.str uid →
      PUT (some md) role uid (some rid) body tu = .ownershipDenied) ∧
    DELETE (some md) role (some rid) = .ownershipDenied := by
  have hupm : "update" ∈ rbacPermissions md role := by simpa using hup
  have hdelm : "delete" ∈ rbacPermissions md role := by simpa using hdel
  by_cases hcase : getProp body of = JsValue.str uid
  · refine ⟨?_, ?_, ?_⟩
    · simp [PUT, hupm, howner, hof, hrole, hcase]
    · intro hne
      exact absurd hcase hne
    · simp [DELETE, hdelm, howner, hof, hrole]
  · refine ⟨?_, ?_, ?_⟩
    · simp [PUT, hupm, howner, hof, hrole, hcase]
    · intro _
      simp [PUT, hupm, howner, hof, hrole, hcase]
    · simp [DELETE, hdelm, howner, hof, hrole]

/-- Witness for C2 (amended): Manager updating a Task whose payload
ownerId equals the principal id "user-1"; the update is allowed, and the
delete is denied regardless. -/
theorem ownership_gate_update_delete_witness :
    (PUT (some taskDef) "Manager" "user-1" (some "rec-1")
        [("title", .str "T"), ("ownerId", .str "user-1")] "t9" =
      .updated ([("id", .str "rec-1")] ++
        [("title", .str "T"), ("ownerId", .str "user-1")] ++
        [("updatedAt", .str "t9")]) ↔
      getProp [("title", .str "T"), ("ownerId", .str "user-1")] "ownerId" =
        JsValue.str "user-1") ∧
    (getProp [("title", .str "T"), ("ownerId", .str "user-1")] "ownerId" ≠
        JsValue.str "user-1" →
      PUT (some taskDef) "Manager" "user-1" (some "rec-1")
        [("title", .str "T"), ("ownerId", .str "user-1")] "t9" =
        .ownershipDenied) ∧
    DELETE (some taskDef) "Manager" (some "rec-1") = .ownershipDenied :=
  ownership_gate_update_delete taskDef "Manager" "user-1" "rec-1" "t9"
    "ownerId" [("title", .str "T"), ("ownerId", .str "user-1")] rfl
    (by decide) (by decide) (by decide) (by decide)

/-- C3: for a model with an owner field, an Admin principal whose role
entry holds update (respectively delete) is always allowed to update
(respectively delete), for every payload and hence for every ownership
value in it, including one different from the principal id. -/
theorem admin_bypasses_ownership
    (md : ModelDefinition) (uid rid tu of : String) (body : Obj)
    (howner : md.ownerField = some of)
    (hup : (rbacPermissions md "Admin").contains "update" = true)
    (hdel : (rbacPermissions md "Admin").contains "delete" = true) :
    PUT (some md) "Admin" uid (some rid) body tu =
      .updated ([("id", .str rid)] ++ body ++ [("updatedAt", .str tu)]) ∧
    DELETE (some md) "Admin" (some rid) = .deleted := by
  have hupm : "update" ∈ rbacPermissions md "Admin" := by simpa using hup
  have hdelm : "delete" ∈ rbacPermissions md "Admin" := by simpa using hdel
  by_cases hof : of = "" <;>
    exact ⟨by simp [PUT, hupm, howner, hof], by simp [DELETE, hdelm, howner, hof]⟩

/-- Witness for C3: an Admin updates and deletes a Task owned by
"user-2", a different principal. -/
theorem admin_bypasses_ownership_witness :
    PUT (some taskDef) "Admin" "user-1" (some "rec-1")
      [("ownerId", .str "user-2")] "t9" =
      .updated ([("id", .str "rec-1")] ++ [("ownerId", .str "user-2")] ++
        [("updatedAt", .str "t9")]) ∧
    DELETE (some taskDef) "Admin" (some "rec-1") = .deleted :=
  admin_bypasses_ownership taskDef "user-1" "rec-1" "t9" "ownerId"
    [("ownerId", .str "user-2")] rfl (by decide) (by decide)

/-- C4 counterexample: on the Product scenario payload, the POST handler
creates a record that still holds the string "999.99" at price (not a
number) and holds no isActive value at all (undefined, not the declared
default true), so the claimed normalized record is not produced. -/
theorem create_passthrough_counterexample :
    POST (some productDef) "Admin" laptopPayload "m1" "t1" "t2" =
      .created [("id", .str "m1"), ("name", .str "Laptop"),
        ("price", .str "999.99"), ("createdAt", .str "t1"),
        ("updatedAt", .str "t2")] ∧
    (getProp [("id", .str "m1"), ("name", .str "Laptop"),
        ("price", .str "999.99"), ("createdAt", .str "t1"),
        ("updatedAt", .str "t2")] "price").isNum = false ∧
    getProp [("id", .str "m1"), ("name", .str "Laptop"),
        ("price", .str "999.99"), ("createdAt", .str "t1"),
        ("updatedAt", .str "t2")] "price" = .str "999.99" ∧
    getProp [("id", .str "m1"), ("name", .str "Laptop"),
        ("price", .str "999.99"), ("createdAt", .str "t1"),
        ("updatedAt", .str "t2")] "isActive" = .undefined ∧
    JsValue.undefined ≠ JsValue.bool true := by
  refine ⟨by decide, by decide, by decide, by decide, by decide⟩

/-- C4 (amended): the POST handler only checks required-ness, then passes
the payload through unchanged into the created record: the Product
scenario payload is accepted, price stays the uncoerced string "999.99",
and the absent isActive receives no declared default (it reads as
undefined). -/
theorem create_no_coercion_no_default (i t1 t2 : String) :
    POST (some productDef) "Admin" laptopPayload i t1 t2 =
      .created ([("id", .str i)] ++ laptopPayload ++
        [("createdAt", .str t1), ("updatedAt", .str t2)]) ∧
    getProp ([("id", .str i)] ++ laptopPayload ++
      [("createdAt", .str t1), ("updatedAt", .str t2)]) "price" =
        .str "999.99" ∧
    getProp ([("id", .str i)] ++ laptopPayload ++
      [("createdAt", .str t1), ("updatedAt", .str t2)]) "isActive" =
        .undefined := by
  refine ⟨rfl, rfl, rfl⟩

/-- C5: for a model with a required field carrying no default, a payload
omitting that field (its read yields undefined) is rejected by the POST
handler with a required-field validation error, while the PUT handler,
which performs no required-ness check, accepts the very same payload
(here for a model without owner field, so that only validation is at
stake). -/
theorem required_only_enforced_on_create
    (md : ModelDefinition) (role uid newId rid t1 t2 tu : String)
    (body : Obj) (f : Field)
    (hf : f ∈ md.fields) (hreq : f.required = true) (hnodef : f.default = none)
    (hmiss : getProp body f.name = JsValue.undefined)
    (hcreate : (rbacPermissions md role).contains "create" = true)
    (hupdate : (rbacPermissions md role).contains "update" = true)
    (hnoowner : md.ownerField.getD "" = "") :
    (∃ g, POST (some md) role body newId t1 t2 = .requiredFieldMissing g) ∧
    PUT (some md) role uid (some rid) body tu =
      .updated ([("id", .str rid)] ++ body ++ [("updatedAt", .str tu)]) := by
  have hcm : "create" ∈ rbacPermissions md role := by simpa using hcreate
  have hum : "update" ∈ rbacPermissions md role := by simpa using hupdate
  constructor
  · have hsome :
        (md.fields.find?
          (fun x => x.required && !(getProp body x.name).truthy)).isSome := by
      rw [List.find?_isSome]
      exact ⟨f, hf, by simp [hreq, hmiss, JsValue.truthy]⟩
    obtain ⟨g, hg⟩ := Option.isSome_iff_exists.mp hsome
    refine ⟨g.name, ?_⟩
    simp [POST, hcm, findMissingRequired_eq_find, hg]
  · simp [PUT, hum, hnoowner]

/-- Witness for C5: the Note model requires the text field "body"; the
empty payload is rejected at creation and accepted at update. -/
theorem required_only_enforced_on_create_witness :
    (∃ g, POST (some noteDef) "Manager" [] "m1" "t1" "t2" =
      .requiredFieldMissing g) ∧
    PUT (some noteDef) "Manager" "user-1" (some "r1") [] "t3" =
      .updated ([("id", .str "r1")] ++ [] ++ [("updatedAt", .str "t3")]) :=
  required_only_enforced_on_create noteDef "Manager" "user-1" "m1" "r1" "t1"
    "t2" "t3" [] { name := "body", type := .text, required := true }
    (by decide) rfl rfl rfl (by decide) (by decide) rfl

/-- C6 counterexample: on the Pair model both required fields a and b are
violated by the empty payload, yet the POST response reports only the
first of them. -/
theorem first_error_only_counterexample :
    POST (some twoReqDef) "Admin" [] "m1" "t1" "t2" =
      .requiredFieldMissing "a" ∧
    (twoReqDef.fields.filter
      (fun f => f.required && !(getProp [] f.name).truthy)).map Field.name =
      ["a", "b"] := by
  exact ⟨by decide, by decide⟩

/-- C6 (amended): create-time validation short-circuits: once the role
check passes, the POST handler answers with the error of the first field
in declaration order that is required and carries a falsy value, never
reporting later violations; only when no field violates does it create
the record. -/
theorem validation_short_circuits
    (md : ModelDefinition) (role newId t1 t2 : String) (body : Obj)
    (hperm : (rbacPermissions md role).contains "create" = true) :
    POST (some md) role body newId t1 t2 =
      (match md.fields.find?
          (fun f => f.required && !(getProp body f.name).truthy) with
       | some f => .requiredFieldMissing f.name
       | none => .created ([("id", .str newId)] ++ body ++
           [("createdAt", .str t1), ("updatedAt", .str t2)])) := by
  have hcm : "create" ∈ rbacPermissions md role := by simpa using hperm
  cases h : md.fields.find?
      (fun f => f.required && !(getProp body f.name).truthy) <;>
    simp [POST, hcm, findMissingRequired_eq_find, h]

/-- Witness for C6 (amended): on the Pair model with the empty payload the
first violating field is a, and the handler answers accordingly. -/
theorem validation_short_circuits_witness :
    POST (some twoReqDef) "Admin" [] "m1" "t1" "t2" =
      (match twoReqDef.fields.find?
          (fun f => f.required && !(getProp [] f.name).truthy) with
       | some f => .requiredFieldMissing f.name
       | none => .created ([("id", .str "m1")] ++ [] ++
           [("createdAt", .str "t1"), ("updatedAt", .str "t2")])) :=
  validation_short_circuits twoReqDef "Admin" "m1" "t1" "t2" [] (by decide)

/-- C7: saving a definition and loading it back by its name yields a
stored document whose definition part equals the input exactly; its
updatedAt is the save instant, so whenever the clock has advanced past
the updatedAt of the previously stored version, the timestamp strictly
increases across the save. -/
theorem save_load_roundtrip (s : Store) (d : ModelDefinition) (t : Nat) :
    loadModel (saveModel s d t) d.name =
      some { model := d, createdAt := t, updatedAt := t } ∧
    (∀ m0 m1, loadModel s d.name = some m0 →
      loadModel (saveModel s d t) d.name = some m1 →
      m1.model = d ∧ (m0.updatedAt < t → m0.updatedAt < m1.updatedAt)) := by
  have h : loadModel (saveModel s d t) d.name =
      some { model := d, createdAt := t, updatedAt := t } := by
    simp [loadModel, saveModel, writeFile, readFile, parseDoc, List.lookup]
  refine ⟨h, ?_⟩
  intro m0 m1 _ h1
  rw [h] at h1
  cases h1
  exact ⟨rfl, fun hlt => hlt⟩

/-- Witness for C7: re-saving the Note model at time 2 over a version
stored at time 1 round-trips the definition and strictly increases
updatedAt. -/
theorem save_load_roundtrip_witness :
    loadModel
      (saveModel
        [("Note", RawDoc.wellFormed
          { model := noteDef, createdAt := 1, updatedAt := 1 })] noteDef 2)
      "Note" = some { model := noteDef, createdAt := 2, updatedAt := 2 } ∧
    ({ model := noteDef, createdAt := 2, updatedAt := 2 } : StoredModel).model
      = noteDef ∧
    (1 : Nat) < 2 := by
  obtain ⟨h1, h2⟩ := save_load_roundtrip
    [("Note", RawDoc.wellFormed
      { model := noteDef, createdAt := 1, updatedAt := 1 })] noteDef 2
  have h3 := h2 { model := noteDef, createdAt := 1, updatedAt := 1 }
    { model := noteDef, createdAt := 2, updatedAt := 2 } rfl h1
  exact ⟨h1, h3.1, h3.2 (by decide)⟩

/-- C8 counterexample: a stored document that exists but fails to parse
loads as null, the very same value an absent document loads as, so no
distinct corrupt-definition error is produced. -/
theorem corrupt_equals_notfound_counterexample :
    loadModel [("Ghost", RawDoc.malformed)] "Ghost" =
      loadModel ([] : Store) "Ghost" ∧
    loadModel [("Ghost", RawDoc.malformed)] "Ghost" = none := by
  exact ⟨rfl, rfl⟩

/-- C8 (amended): loadModel catches every thrown error, so a document
that exists but fails to parse yields null, indistinguishable from the
null returned for a name with no document at all. -/
theorem corrupt_doc_loads_as_none (s s2 : Store) (nm : String)
    (h1 : readFile s nm = some RawDoc.malformed)
    (h2 : readFile s2 nm = none) :
    loadModel s nm = none ∧ loadModel s2 nm = none ∧
    loadModel s nm = loadModel s2 nm := by
  simp [loadModel, h1, h2, parseDoc]

/-- Witness for C8 (amended): a malformed Ghost document and an empty
store both load as null. -/
theorem corrupt_doc_loads_as_none_witness :
    loadModel [("Ghost", RawDoc.malformed)] "Ghost" = none ∧
    loadModel ([] : Store) "Ghost" = none ∧
    loadModel [("Ghost", RawDoc.malformed)] "Ghost" =
      loadModel ([] : Store) "Ghost" :=
  corrupt_doc_loads_as_none [("Ghost", RawDoc.malformed)] [] "Ghost" rfl rfl

/-- C9 counterexample: `dupFieldDef` violates the save-time invariants of
the spec (duplicate field name and a non-canonical rbac action), yet
saveModel persists it unchanged and it loads back, so no
invalid-definition rejection happens. -/
theorem invalid_definition_persisted_counterexample :
    ¬ specDefinitionInvariants dupFieldDef ∧
    loadModel (saveModel ([] : Store) dupFieldDef 5) "Broken" =
      some { model := dupFieldDef, createdAt := 5, updatedAt := 5 } := by
  exact ⟨by decide, rfl⟩

/-- C9 (amended): saveModel performs no invariant check and persists
every definition unchanged, including one violating the spec invariants;
the only pre-write check in the codebase, in the models POST route,
accepts a body exactly when its name is non-empty and its field array is
present and non-empty, inspecting neither field-name uniqueness nor the
rbac actions. -/
theorem save_skips_invariant_checks (s : Store) (m : ModelDefinition) (t : Nat)
    (hviol : ¬ specDefinitionInvariants m) :
    loadModel (saveModel s m t) m.name =
      some { model := m, createdAt := t, updatedAt := t } ∧
    (∀ (nm : String) (fs : List Field),
      modelsPostValid nm (some fs) = true ↔ (nm ≠ "" ∧ fs ≠ [])) := by
  constructor
  · simp [loadModel, saveModel, writeFile, readFile, parseDoc, List.lookup]
  · intro nm fs
    simp [modelsPostValid, List.length_eq_zero]

/-- Witness for C9 (amended): the violating `dupFieldDef` is persisted
at time 7 and loads back; the route check accepts the name "P" with one
field. -/
theorem save_skips_invariant_checks_witness :
    loadModel (saveModel ([] : Store) dupFieldDef 7) dupFieldDef.name =
      some { model := dupFieldDef, createdAt := 7, updatedAt := 7 } ∧
    (modelsPostValid "P" (some [{ name := "x", type := FieldType.string }]) =
        true ↔
      ("P" ≠ "" ∧ [({ name := "x", type := FieldType.string } : Field)] ≠ [])) := by
  obtain ⟨h1, h2⟩ := save_skips_invariant_checks [] dupFieldDef 7 (by decide)
  exact ⟨h1, h2 "P" [{ name := "x", type := FieldType.string }]⟩

/-- C10: updateModel on a name with no stored document returns false and
the unchanged store; no file is created or modified, and the embedding is
a total function, mirroring the surrounding catch that converts every
thrown error into false. -/
theorem update_missing_model_noop
    (s : Store) (nm : String) (u : ModelUpdates) (t : Nat)
    (h : s.lookup nm = none) :
    updateModel s nm u t = (false, s) := by
  simp [updateModel, loadModel, readFile, h]

/-- Witness for C10: updating the absent model "Nope" in the empty store
leaves it empty and returns false. -/
theorem update_missing_model_noop_witness :
    updateModel ([] : Store) "Nope" {} 3 = (false, []) :=
  update_missing_model_noop [] "Nope" {} 3 rfl

end CrudRbac
